import Mathlib

/-!
# Verification of the bq2md schema-extraction pipeline

A shallow embedding of the bq2md repository (src/bq2md/bigquery.py,
src/bq2md/config.py, src/bq2md/formatter.py, src/bq2md/cli.py) together
with proofs about the embedded functions.

Modelling conventions:
* JSON values are the mutual inductive family `Json` / `JsonList` / `JsonProps`
  (Null | Bool | Number | String | Array | Object).
* The external collaborators (BigQuery query execution, the filesystem, the
  Python `json.loads` parser, `random.sample`) are passed in as explicit
  parameters: a query result is `Option (List Row)` (`none` models a raised
  exception, which the code catches), the parser is `String → Option Json`
  (`none` models `json.JSONDecodeError` / `TypeError`), and the unseeded
  random selection is a function `pick : List Row → Nat → List Row` about
  which theorems only assume what `random.sample` guarantees (it returns
  exactly `k` rows when `k ≤ l.length`).
* Machine integers do not occur on any modelled path; row counts are `Nat`
  and JSON numbers are `Int`.
-/

/-- The JSON type tags tracked by the structural schema
(spec section 9: Null | Bool | Number | String | Array | Object). -/
inductive JsonType where
  | null
  | boolean
  | number
  | string
  | array
  | object
deriving DecidableEq, Repr

mutual

/-- A parsed JSON value (the result of `json.loads` or an already
structured value coming back from the BigQuery client). -/
inductive Json where
  | null
  | bool (b : Bool)
  | num (n : Int)
  | str (s : String)
  | arr (xs : JsonList)
  | obj (kvs : JsonProps)

/-- The elements of a JSON array. -/
inductive JsonList where
  | nil
  | cons (hd : Json) (tl : JsonList)

/-- The key/value pairs of a JSON object. -/
inductive JsonProps where
  | nil
  | cons (key : String) (val : Json) (tl : JsonProps)

end

/-- The JSON type tag of a value. -/
def typeOf : Json → JsonType
  | .null => .null
  | .bool _ => .boolean
  | .num _ => .number
  | .str _ => .string
  | .arr _ => .array
  | .obj _ => .object

mutual

/-- Modelled from the spec: the structural schema built by genson's
`SchemaBuilder` (an external dependency, not under src/).  Per spec
section 4.2 it tracks, per JSON path, the set of types observed, the union
of object keys seen (each with its own sub-schema), and a generalized
element schema for arrays. -/
inductive Schema where
  | node (types : List JsonType) (props : SchemaProps) (items : ItemsSchema)

/-- The array-element sub-schema of a `Schema` (`none` before any array
value has been observed at this path). -/
inductive ItemsSchema where
  | none
  | some (s : Schema)

/-- The object-key sub-schemas of a `Schema`: an association list from key
to the sub-schema observed under that key. -/
inductive SchemaProps where
  | nil
  | cons (key : String) (s : Schema) (tl : SchemaProps)

end

/-- The observed type set at the root of a schema. -/
def Schema.types : Schema → List JsonType
  | .node ts _ _ => ts

/-- The object-key sub-schemas at the root of a schema. -/
def Schema.props : Schema → SchemaProps
  | .node _ ps _ => ps

/-- The array-element sub-schema at the root of a schema. -/
def Schema.items : Schema → ItemsSchema
  | .node _ _ it => it

/-- The schema of a fresh `SchemaBuilder()`: nothing observed yet. -/
def Schema.empty : Schema := .node [] .nil .none

/-- Record a type tag in an observed-type set (a no-op when the tag was
already observed). -/
def insertType (t : JsonType) (ts : List JsonType) : List JsonType :=
  if t ∈ ts then ts else ts ++ [t]

/-- Look a key up in an object-key association list. -/
def lookupProp : SchemaProps → String → Option Schema
  | .nil, _ => Option.none
  | .cons k s tl, key => if key = k then Option.some s else lookupProp tl key

/-- Replace the sub-schema stored under a key (appending the key when it
was absent). -/
def setProp : SchemaProps → String → Schema → SchemaProps
  | .nil, key, s => .cons key s .nil
  | .cons k s' tl, key, s => if key = k then .cons k s tl else .cons k s' (setProp tl key s)

/-- The sub-schema stored under a key, or the empty schema when the key has
not been observed yet. -/
def propOrEmpty (ps : SchemaProps) (key : String) : Schema :=
  match lookupProp ps key with
  | Option.some s => s
  | Option.none => Schema.empty

/-- The array-element sub-schema, or the empty schema when no array has
been observed yet. -/
def itemsOrEmpty : ItemsSchema → Schema
  | .none => Schema.empty
  | .some s => s

mutual

/-- Modelled from the spec: genson's `SchemaBuilder.add_object`
(bigquery.py line 151 calls it; the library itself is not under src/).
Spec section 4.2: the observed value is folded into the cumulative schema,
widening the type set at each path, recursing into object keys (union of
keys) and generalizing the array element schema across all elements. -/
def addObject : Schema → Json → Schema
  | .node ts ps it, .null => .node (insertType .null ts) ps it
  | .node ts ps it, .bool _ => .node (insertType .boolean ts) ps it
  | .node ts ps it, .num _ => .node (insertType .number ts) ps it
  | .node ts ps it, .str _ => .node (insertType .string ts) ps it
  | .node ts ps it, .arr xs =>
      .node (insertType .array ts) ps (.some (addItems (itemsOrEmpty it) xs))
  | .node ts ps it, .obj kvs =>
      .node (insertType .object ts) (addProps ps kvs) it

/-- Fold every element of an array into the array-element sub-schema. -/
def addItems : Schema → JsonList → Schema
  | s, .nil => s
  | s, .cons x xs => addItems (addObject s x) xs

/-- Fold every key/value pair of an object into the object-key sub-schemas
(a key absent so far starts from the empty schema). -/
def addProps : SchemaProps → JsonProps → SchemaProps
  | ps, .nil => ps
  | ps, .cons k v kvs => addProps (setProp ps k (addObject (propOrEmpty ps k) v)) kvs

end

/-- The schema a fresh builder reports after the whole list of successfully
parsed values has been added one at a time
(bigquery.py lines 138, 151, 164: `SchemaBuilder()`, `add_object`,
`to_schema`). -/
def inferSchema (vs : List Json) : Schema :=
  vs.foldl addObject Schema.empty

/-! ## The Sampler (bigquery.py, `sample_json_fields`) -/

/-- A raw cell value as returned by the BigQuery client for one row and one
column: SQL NULL, a textual JSON payload, or an already structured value. -/
inductive RawValue where
  | null
  | str (s : String)
  | json (v : Json)

/-- A retrieved row: field access by column name
(bigquery.py line 141, `getattr(row, field)`). -/
def Row : Type := String → RawValue

/-- Python truthiness of a parsed JSON value (`if value:` on a structured
value skips empty containers, zero, empty strings, False and None). -/
def pyTruthy : Json → Bool
  | .null => false
  | .bool b => b
  | .num n => if n = 0 then false else true
  | .str s => if s = "" then false else true
  | .arr .nil => false
  | .arr (.cons _ _) => true
  | .obj .nil => false
  | .obj (.cons _ _ _) => true

/-- Python truthiness of a raw cell value (bigquery.py line 142,
`if value:`). -/
def truthy : RawValue → Bool
  | .null => false
  | .str s => if s = "" then false else true
  | .json v => pyTruthy v

/-- bigquery.py lines 145-148: a textual cell is parsed with `json.loads`
(the external parser is the `parse` argument; `Option.none` models a raised
`JSONDecodeError`/`TypeError`, caught by the surrounding except); any other
cell is used directly as the parsed value. -/
def parseCell (parse : String → Option Json) : RawValue → Option Json
  | .str s => parse s
  | .json v => Option.some v
  | .null => Option.some Json.null

/-- One iteration of the per-row loop body for a single field
(bigquery.py lines 141-159): the successfully parsed value of the cell, or
`Option.none` when the cell is falsy or fails to parse. -/
def parseAttempt (parse : String → Option Json) (value : RawValue) : Option Json :=
  if truthy value then parseCell parse value else Option.none

/-- The ordered sequence of successfully parsed values a field contributes
(the cells of the selected rows, falsy cells and parse failures skipped). -/
def parsedValues (parse : String → Option Json) (field : String) (rows : List Row) :
    List Json :=
  rows.filterMap (fun r => parseAttempt parse (r field))

/-- The body of the per-row loop for one field (bigquery.py lines 140-159):
a successfully parsed cell is added to the schema builder and appended to
`samples`; a falsy cell or a parse failure leaves the accumulator
unchanged. -/
def loopStep (parse : String → Option Json) (field : String)
    (acc : Schema × List Json) (r : Row) : Schema × List Json :=
  match parseAttempt parse (r field) with
  | Option.some parsed => (addObject acc.1 parsed, acc.2 ++ [parsed])
  | Option.none => acc

/-- The parse-and-fold loop over the selected rows for one field
(bigquery.py lines 137-159): a fresh `SchemaBuilder` accumulates every
successfully parsed value while `samples` collects the same values in row
order. -/
def sampleLoop (parse : String → Option Json) (field : String) (rows : List Row) :
    Schema × List Json :=
  rows.foldl (loopStep parse field) (Schema.empty, [])

/-- The per-field entry of the result mapping: the inferred schema and the
retained display samples. -/
structure FieldSample where
  schema : Schema
  samples : List Json

/-- bigquery.py lines 161-166: a field enters the result mapping only when
its loop produced at least one successfully parsed value; the schema is the
builder's output and the displayed samples are truncated to the first 3. -/
def processField (parse : String → Option Json) (field : String) (rows : List Row) :
    Option FieldSample :=
  let r := sampleLoop parse field rows
  if r.2.isEmpty then Option.none
  else Option.some ⟨r.1, r.2.take 3⟩

/-- bigquery.py lines 129-131: when more rows were retrieved than
`sample_size`, `random.sample(rows, sample_size)` selects exactly
`sample_size` of them; otherwise all retrieved rows are used.  The unseeded
random choice is the explicit `pick` argument. -/
def selectedRows (pick : List Row → Nat → List Row) (rows : List Row)
    (sample_size : Nat) : List Row :=
  if sample_size < rows.length then pick rows sample_size else rows

/-- bigquery.py lines 92-181, `sample_json_fields`: empty field list short
circuits before any query; a raised query error (`qres = Option.none`) is
caught and yields the empty mapping; zero retrieved rows yield the empty
mapping; otherwise at most `sample_size` rows are selected and each field
is processed by the parse-and-fold loop, entering the mapping only when it
produced at least one parsed value. -/
def sample_json_fields (parse : String → Option Json)
    (pick : List Row → Nat → List Row) (qres : Option (List Row))
    (json_fields : List String) (sample_size : Nat) :
    List (String × FieldSample) :=
  if json_fields.isEmpty then []
  else
    match qres with
    | Option.none => []
    | Option.some rows =>
      if rows.isEmpty then []
      else
        let rows := selectedRows pick rows sample_size
        json_fields.filterMap
          (fun field => (processField parse field rows).map (fun fs => (field, fs)))

/-! ## The Assembler (bigquery.py, `get_table_schema`) -/

/-- A column descriptor as reported by the BigQuery metadata source
(bigquery.py lines 65-71). -/
structure FieldInfo where
  name : String
  type : String
  mode : String
  description : String
deriving DecidableEq, Repr

/-- The table metadata returned by `client.get_table`
(`created` is the isoformat timestamp when present). -/
structure Table where
  table_id : String
  description : String
  num_rows : Nat
  created : Option String
  schema : List FieldInfo

/-- A column of the assembled `schema_info`: the copied descriptor plus the
optional JSON annotation (the `json_schema`/`json_samples` keys, which the
code always sets together from one entry of the sampling result). -/
structure OutField where
  name : String
  type : String
  mode : String
  description : String
  jsonSample : Option FieldSample

/-- The assembled per-table schema information (bigquery.py lines 54-60). -/
structure TableSchema where
  name : String
  description : String
  num_rows : Nat
  created : String
  fields : List OutField

/-- The names of the JSON-typed columns, in schema order
(bigquery.py lines 62-75). -/
def json_field_names (table : Table) : List String :=
  (table.schema.filter (fun f => f.type == "JSON")).map FieldInfo.name

/-- The column list of `schema_info` before any JSON annotation is attached
(bigquery.py lines 65-77). -/
def base_fields (table : Table) : List OutField :=
  table.schema.map (fun f => ⟨f.name, f.type, f.mode, f.description, Option.none⟩)

/-- bigquery.py lines 41-90, `get_table_schema`: builds the base column
list, samples the JSON-typed columns only when at least one exists and the
table has rows, and attaches each sampled column's schema and samples to
the column of the same name. -/
def get_table_schema (parse : String → Option Json)
    (pick : List Row → Nat → List Row) (qres : Option (List Row))
    (table : Table) : TableSchema :=
  let json_fields := json_field_names table
  let json_samples :=
    if json_fields ≠ [] ∧ 0 < table.num_rows then
      sample_json_fields parse pick qres json_fields 10
    else []
  { name := table.table_id
    description := table.description
    num_rows := table.num_rows
    created := table.created.getD ""
    fields := (base_fields table).map
      (fun f => { f with jsonSample := json_samples.lookup f.name }) }

/-! ## Configuration (config.py, `check_credentials`) -/

/-- The application-default-credentials location the code falls back to
(config.py line 17; `expanduser` is kept abstract, the modelled filesystem
predicate is applied to the unexpanded literal). -/
def adc_path : String := "~/.config/gcloud/application_default_credentials.json"

/-- config.py lines 15-20: the branch taken when `not creds_path` holds,
i.e. the fall back to the application-default-credentials check. -/
def adc_fallback (path_exists : String → Bool) : Bool × String :=
  if path_exists adc_path then
    (true, "Using application default credentials.")
  else
    (false, "GOOGLE_APPLICATION_CREDENTIALS environment variable not set and no application default credentials found.")

/-- config.py lines 11-25: `creds_path` is `os.getenv` of
GOOGLE_APPLICATION_CREDENTIALS (`Option.none` when unset) and
`path_exists` is the filesystem's `os.path.exists`/`Path.exists`.  Python's
`if not creds_path:` is true both when the variable is unset and when it is
set to the empty string, so both cases fall back to the
application-default-credentials check. -/
def check_credentials (creds_path : Option String) (path_exists : String → Bool) :
    Bool × String :=
  match creds_path with
  | Option.none => adc_fallback path_exists
  | Option.some p =>
      if p = "" then adc_fallback path_exists
      else if path_exists p then (true, "Credentials configured correctly.")
      else (false, "Credentials file not found at: " ++ p)

/-! ## Formatter (formatter.py, `save_markdown`) and CLI (cli.py, `main`) -/

/-- formatter.py lines 125-143, `save_markdown`: the file write is
attempted inside try/except, so the function never raises; it returns
`true` when the write succeeded and `false` when the raised exception was
caught and logged.  The outcome of the external `write_text` call is the
`write_succeeds` argument. -/
def save_markdown (write_succeeds : Bool) : Bool :=
  if write_succeeds then true else false

/-- cli.py lines 29-77, `main` (renamed here because Lean reserves `main`
for executable entry points), modelled as the exit code together with the
ordered standard-output messages.  External collaborators: the credential
environment (`creds_path`, `path_exists`), table listing
(`Except.error e` models a raised exception, caught by the top-level
except), the per-table sampling query outcome `qres`, and the file-write
outcome.  The return value of `save_markdown` is bound and never
inspected, exactly as in the source. -/
def cli_main (parse : String → Option Json) (pick : List Row → Nat → List Row)
    (creds_path : Option String) (path_exists : String → Bool)
    (tables : Except String (List Table)) (qres : String → Option (List Row))
    (write_succeeds : Bool) (dataset output_file : String) : Nat × List String :=
  let creds := check_credentials creds_path path_exists
  if creds.1 = false then
    (1, ["Error: " ++ creds.2,
         "Please set the GOOGLE_APPLICATION_CREDENTIALS environment variable."])
  else
    match tables with
    | Except.error e => (1, ["Error: " ++ e])
    | Except.ok [] =>
        (0, ["Warning: No tables found in dataset '" ++ dataset ++ "'"])
    | Except.ok ts =>
        let _schemas := ts.map (fun t => get_table_schema parse pick (qres t.table_id) t)
        let _saved := save_markdown write_succeeds
        (0, ["Found " ++ toString ts.length ++ " tables in dataset '" ++ dataset ++ "'",
             "Formatting as Markdown...",
             "Successfully saved schema to " ++ output_file])

/-! ## Basic lemmas about the schema builder -/

theorem mem_insertType_self (t : JsonType) (ts : List JsonType) : t ∈ insertType t ts := by
  unfold insertType
  split
  · assumption
  · simp

theorem mem_insertType_of_mem (t : JsonType) {u : JsonType} {ts : List JsonType}
    (h : u ∈ ts) : u ∈ insertType t ts := by
  unfold insertType
  split
  · exact h
  · simp [h]

theorem insertType_eq_of_mem {t : JsonType} {ts : List JsonType} (h : t ∈ ts) :
    insertType t ts = ts := by
  simp [insertType, h]

theorem addObject_types (s : Schema) (v : Json) :
    (addObject s v).types = insertType (typeOf v) s.types := by
  cases s
  cases v <;> simp [addObject, typeOf, Schema.types]

theorem types_mono_foldl (l : List Json) :
    ∀ (s : Schema) (t : JsonType), t ∈ s.types → t ∈ (l.foldl addObject s).types := by
  induction l with
  | nil => intro s t ht; simpa using ht
  | cons x xs ih =>
    intro s t ht
    have hx : t ∈ (addObject s x).types := by
      rw [addObject_types]; exact mem_insertType_of_mem _ ht
    simpa using ih (addObject s x) t hx

theorem mem_types_foldl {v : Json} {l : List Json} (h : v ∈ l) (s : Schema) :
    typeOf v ∈ (l.foldl addObject s).types := by
  induction l generalizing s with
  | nil => cases h
  | cons x xs ih =>
    rcases List.mem_cons.mp h with rfl | h'
    · simp only [List.foldl_cons]
      refine types_mono_foldl xs (addObject s v) _ ?_
      rw [addObject_types]; exact mem_insertType_self _ _
    · simpa using ih h' (addObject s x)

/-! ## Characterization of the per-field loop -/

theorem foldl_loopStep (parse : String → Option Json) (field : String)
    (rows : List Row) :
    ∀ (s : Schema) (acc : List Json),
      rows.foldl (loopStep parse field) (s, acc) =
        ((parsedValues parse field rows).foldl addObject s,
          acc ++ parsedValues parse field rows) := by
  induction rows with
  | nil => intro s acc; simp [parsedValues]
  | cons r rs ih =>
    intro s acc
    simp only [List.foldl_cons, parsedValues, List.filterMap_cons]
    cases hp : parseAttempt parse (r field) with
    | none => simpa [loopStep, hp, parsedValues] using ih s acc
    | some p =>
      simp only [loopStep, hp]
      simpa [parsedValues, List.append_assoc] using ih (addObject s p) (acc ++ [p])

theorem sampleLoop_eq (parse : String → Option Json) (field : String)
    (rows : List Row) :
    sampleLoop parse field rows =
      (inferSchema (parsedValues parse field rows), parsedValues parse field rows) := by
  unfold sampleLoop inferSchema
  simpa using foldl_loopStep parse field rows Schema.empty []

theorem processField_eq (parse : String → Option Json) (field : String)
    (rows : List Row) :
    processField parse field rows =
      if (parsedValues parse field rows).isEmpty then Option.none
      else
        Option.some
          ⟨inferSchema (parsedValues parse field rows),
            (parsedValues parse field rows).take 3⟩ := by
  unfold processField
  rw [sampleLoop_eq]

theorem processField_isSome (parse : String → Option Json) (field : String)
    (rows : List Row) :
    (processField parse field rows).isSome = true ↔
      parsedValues parse field rows ≠ [] := by
  rw [processField_eq]
  split
  · rename_i h
    simp only [Option.isSome_none]
    simp [List.isEmpty_iff] at h
    simp [h]
  · rename_i h
    simp only [Option.isSome_some]
    simp [List.isEmpty_iff] at h
    simp [h]

/-! ## Shared helpers about the sampler and assembler -/

theorem sample_json_fields_query_error (parse : String → Option Json)
    (pick : List Row → Nat → List Row) (json_fields : List String)
    (sample_size : Nat) :
    sample_json_fields parse pick Option.none json_fields sample_size = [] := by
  unfold sample_json_fields
  split
  · rfl
  · rfl

theorem get_table_schema_of_samples_nil (parse : String → Option Json)
    (pick : List Row → Nat → List Row) (qres : Option (List Row)) (table : Table)
    (h : (if json_field_names table ≠ [] ∧ 0 < table.num_rows then
            sample_json_fields parse pick qres (json_field_names table) 10
          else []) = []) :
    get_table_schema parse pick qres table =
      TableSchema.mk table.table_id table.description table.num_rows
        (table.created.getD "") (base_fields table) := by
  unfold get_table_schema
  simp only []
  rw [h]
  congr 1
  unfold base_fields
  rw [List.map_map]
  apply List.map_congr_left
  intro g _
  rfl

/-! ## Claim C1: sampling count invariant -/

/-- C1: for every sampler invocation where the query retrieves `r` rows and
the configured `sampleSize` is `s`, the number of rows passed to inference
(the row list every per-column parse-and-fold loop runs over, i.e.
`selectedRows`, which `sample_json_fields` feeds to `processField`) equals
`min r s`.  The hypothesis is exactly what Python's
`random.sample(rows, sample_size)` guarantees: a selection of
`sample_size` rows whenever `sample_size ≤ len(rows)`. -/
theorem sampler_count_invariant (pick : List Row → Nat → List Row)
    (rows : List Row) (sample_size : Nat)
    (hpick : ∀ (l : List Row) (k : Nat), k ≤ l.length → (pick l k).length = k) :
    (selectedRows pick rows sample_size).length = min rows.length sample_size := by
  unfold selectedRows
  split
  · rename_i h
    rw [hpick rows sample_size (Nat.le_of_lt h)]
    omega
  · rename_i h
    omega

theorem sampler_count_invariant_witness :
    (selectedRows (fun l k => l.take k)
        ([fun _ => RawValue.null, fun _ => RawValue.null, fun _ => RawValue.null] : List Row)
        2).length =
      min ([fun _ => RawValue.null, fun _ => RawValue.null, fun _ => RawValue.null] : List Row).length 2 :=
  sampler_count_invariant (fun l k => l.take k) _ 2
    (fun l k hk => by simp only [List.length_take]; omega)

/-! ## Claim C3: root type set covers every parsed sample -/

/-- C3: whenever the per-field loop produced a result (so the set of
successfully parsed sample values is non-empty), the declared type set at
the document root of the inferred structural schema contains the JSON type
of every individual successfully parsed sample value. -/
theorem root_types_superset (parse : String → Option Json) (field : String)
    (rows : List Row) (fs : FieldSample)
    (h : processField parse field rows = Option.some fs) :
    ∀ v ∈ parsedValues parse field rows, typeOf v ∈ fs.schema.types := by
  intro v hv
  rw [processField_eq] at h
  split at h
  · cases h
  · cases h
    exact mem_types_foldl hv Schema.empty

theorem root_types_superset_witness :
    typeOf (Json.str "a") ∈
      (FieldSample.mk (Schema.node [JsonType.number, JsonType.string] .nil .none)
        [Json.num 1, Json.str "a"]).schema.types :=
  root_types_superset (fun _ => Option.none) "f"
    ([fun _ => RawValue.json (Json.num 1), fun _ => RawValue.json (Json.str "a")] : List Row)
    _ rfl (Json.str "a") (by simp [parsedValues, parseAttempt, truthy, pyTruthy, parseCell])

/-! ## Claim C4: display samples are the first 3 parsed values, truncated after inference -/

/-- C4: whenever the per-field loop produced a result, the attached
`json_samples` list is the first 3 successfully parsed values (hence of
length `min 3 (number of parsed values)`), while the attached schema was
built from the full parsed-value sequence — truncation happens after
inference, not before. -/
theorem truncation_after_inference (parse : String → Option Json) (field : String)
    (rows : List Row) (fs : FieldSample)
    (h : processField parse field rows = Option.some fs) :
    fs.schema = inferSchema (parsedValues parse field rows) ∧
    fs.samples = (parsedValues parse field rows).take 3 ∧
    fs.samples.length = min 3 (parsedValues parse field rows).length := by
  rw [processField_eq] at h
  split at h
  · cases h
  · cases h
    refine ⟨rfl, rfl, ?_⟩
    simp [List.length_take]

theorem truncation_after_inference_witness :
    (FieldSample.mk (Schema.node [JsonType.number] .nil .none)
        [Json.num 1, Json.num 2, Json.num 3]).schema =
      inferSchema (parsedValues (fun _ => Option.none) "f"
        ([fun _ => RawValue.json (Json.num 1), fun _ => RawValue.json (Json.num 2),
          fun _ => RawValue.json (Json.num 3), fun _ => RawValue.json (Json.num 4)] : List Row)) ∧
    (FieldSample.mk (Schema.node [JsonType.number] .nil .none)
        [Json.num 1, Json.num 2, Json.num 3]).samples =
      (parsedValues (fun _ => Option.none) "f"
        ([fun _ => RawValue.json (Json.num 1), fun _ => RawValue.json (Json.num 2),
          fun _ => RawValue.json (Json.num 3), fun _ => RawValue.json (Json.num 4)] : List Row)).take 3 ∧
    (FieldSample.mk (Schema.node [JsonType.number] .nil .none)
        [Json.num 1, Json.num 2, Json.num 3]).samples.length =
      min 3 (parsedValues (fun _ => Option.none) "f"
        ([fun _ => RawValue.json (Json.num 1), fun _ => RawValue.json (Json.num 2),
          fun _ => RawValue.json (Json.num 3), fun _ => RawValue.json (Json.num 4)] : List Row)).length :=
  truncation_after_inference (fun _ => Option.none) "f" _ _ rfl

/-! ## Claim C6: a raised query error is recovered -/

/-- C6: when query execution raises (`qres = Option.none`), the exception
is caught: the sampler returns the empty mapping and the assembled
`TableSchema` is exactly the base schema, every column without a
JsonSample annotation.  Both functions are total, so schema extraction for
the table (and hence the run) produces a result rather than aborting. -/
theorem query_error_yields_empty (parse : String → Option Json)
    (pick : List Row → Nat → List Row) :
    (∀ (json_fields : List String) (sample_size : Nat),
        sample_json_fields parse pick Option.none json_fields sample_size = []) ∧
    (∀ table : Table,
        get_table_schema parse pick Option.none table =
          TableSchema.mk table.table_id table.description table.num_rows
            (table.created.getD "") (base_fields table)) := by
  refine ⟨fun json_fields sample_size => sample_json_fields_query_error _ _ _ _, fun table => ?_⟩
  apply get_table_schema_of_samples_nil
  split
  · exact sample_json_fields_query_error _ _ _ _
  · rfl

/-! ## Claim C7: the assembler skips sampling when there is nothing to sample -/

/-- C7: for a table with no JSON-typed columns or zero rows, the assembler
performs no sampling or inference — the result is the base `TableSchema`
with no JsonSample annotations, and it is independent of the query
collaborators (`parse`, `pick`, `qres`), which formalizes that no query is
issued. -/
theorem assembler_skips_sampling (parse : String → Option Json)
    (pick : List Row → Nat → List Row) (qres : Option (List Row)) (table : Table)
    (h : json_field_names table = [] ∨ table.num_rows = 0) :
    get_table_schema parse pick qres table =
      TableSchema.mk table.table_id table.description table.num_rows
        (table.created.getD "") (base_fields table) ∧
    ∀ (parse' : String → Option Json) (pick' : List Row → Nat → List Row)
      (qres' : Option (List Row)),
      get_table_schema parse pick qres table = get_table_schema parse' pick' qres' table := by
  have hcond : ¬(json_field_names table ≠ [] ∧ 0 < table.num_rows) := by
    rcases h with h | h
    · simp [h]
    · simp [h]
  have hbase : ∀ (p : String → Option Json) (k : List Row → Nat → List Row)
      (q : Option (List Row)),
      get_table_schema p k q table =
        TableSchema.mk table.table_id table.description table.num_rows
          (table.created.getD "") (base_fields table) := by
    intro p k q
    apply get_table_schema_of_samples_nil
    rw [if_neg hcond]
  exact ⟨hbase parse pick qres, fun p' k' q' => (hbase parse pick qres).trans (hbase p' k' q').symm⟩

theorem assembler_skips_sampling_witness :
    get_table_schema (fun _ => Option.none) (fun l _ => l) Option.none
        (Table.mk "logs" "" 5 Option.none
          [FieldInfo.mk "msg" "STRING" "NULLABLE" ""]) =
      TableSchema.mk "logs" "" 5 ""
        (base_fields (Table.mk "logs" "" 5 Option.none
          [FieldInfo.mk "msg" "STRING" "NULLABLE" ""])) :=
  (assembler_skips_sampling (fun _ => Option.none) (fun l _ => l) Option.none
    (Table.mk "logs" "" 5 Option.none [FieldInfo.mk "msg" "STRING" "NULLABLE" ""])
    (Or.inl rfl)).1

/-! ## Claim C8: empty target-column set short-circuits -/

/-- C8: calling the sampler with an empty set of target columns returns the
empty mapping, and the result does not depend on the query outcome at all
(the early return happens before the query is built or executed). -/
theorem empty_columns_no_query (parse : String → Option Json)
    (pick : List Row → Nat → List Row) (qres : Option (List Row))
    (sample_size : Nat) :
    sample_json_fields parse pick qres [] sample_size = [] ∧
    ∀ qres' : Option (List Row),
      sample_json_fields parse pick qres [] sample_size =
        sample_json_fields parse pick qres' [] sample_size :=
  ⟨rfl, fun _ => rfl⟩

/-! ## Claim C9: a failed file write is logged but the CLI still succeeds -/

/-- C9: `save_markdown` never raises — it is total, returning `true` on a
successful write and `false` when the caught write failure was logged; and
the CLI does not inspect this return value: with valid credentials and a
non-empty table list, the run with a failing write is indistinguishable
from the run with a successful write, still prints the success message,
and exits with code 0. -/
theorem save_failure_still_succeeds :
    (save_markdown true = true ∧ save_markdown false = false) ∧
    ∀ (parse : String → Option Json) (pick : List Row → Nat → List Row)
      (creds_path : Option String) (path_exists : String → Bool)
      (ts : List Table) (qres : String → Option (List Row))
      (dataset output_file : String),
      (check_credentials creds_path path_exists).1 = true →
      ts ≠ [] →
      cli_main parse pick creds_path path_exists (Except.ok ts) qres false dataset output_file =
        cli_main parse pick creds_path path_exists (Except.ok ts) qres true dataset output_file ∧
      (cli_main parse pick creds_path path_exists (Except.ok ts) qres false dataset output_file).1 = 0 ∧
      ("Successfully saved schema to " ++ output_file) ∈
        (cli_main parse pick creds_path path_exists (Except.ok ts) qres false dataset output_file).2 := by
  refine ⟨⟨rfl, rfl⟩, ?_⟩
  intro parse pick creds_path path_exists ts qres dataset output_file hcreds hts
  match ts with
  | [] => exact absurd rfl hts
  | t :: ts' =>
    simp [cli_main, hcreds]

theorem save_failure_still_succeeds_witness :
    (save_markdown true = true ∧ save_markdown false = false) ∧
    ((check_credentials Option.none (fun _ => true)).1 = true ∧
      ([Table.mk "t" "" 0 Option.none []] : List Table) ≠ []) ∧
    (cli_main (fun _ => Option.none) (fun l _ => l) Option.none (fun _ => true)
        (Except.ok [Table.mk "t" "" 0 Option.none []]) (fun _ => Option.none)
        false "ds" "out.md" =
      cli_main (fun _ => Option.none) (fun l _ => l) Option.none (fun _ => true)
        (Except.ok [Table.mk "t" "" 0 Option.none []]) (fun _ => Option.none)
        true "ds" "out.md" ∧
    (cli_main (fun _ => Option.none) (fun l _ => l) Option.none (fun _ => true)
        (Except.ok [Table.mk "t" "" 0 Option.none []]) (fun _ => Option.none)
        false "ds" "out.md").1 = 0 ∧
    ("Successfully saved schema to " ++ "out.md") ∈
      (cli_main (fun _ => Option.none) (fun l _ => l) Option.none (fun _ => true)
        (Except.ok [Table.mk "t" "" 0 Option.none []]) (fun _ => Option.none)
        false "ds" "out.md").2) :=
  ⟨save_failure_still_succeeds.1,
    ⟨rfl, by simp⟩,
    save_failure_still_succeeds.2 (fun _ => Option.none) (fun l _ => l) Option.none
      (fun _ => true) [Table.mk "t" "" 0 Option.none []] (fun _ => Option.none)
      "ds" "out.md" rfl (by simp)⟩

/-! ## Claim C10: when does check_credentials report success? -/

/-- The success condition exactly as claim C10 words it: either the
GOOGLE_APPLICATION_CREDENTIALS variable is set to a path that exists, or
it is unset and the application-default-credentials file exists (so a
variable set to a nonexistent path fails without falling back). -/
def claimed_credentials_ok (creds_path : Option String)
    (path_exists : String → Bool) : Prop :=
  match creds_path with
  | Option.some p => path_exists p = true
  | Option.none => path_exists adc_path = true

/-- C10 fails on the code: with the variable set to the empty string — a
set variable whose value, as a path, does not exist — the code falls back
to the application-default-credentials check (Python's `if not creds_path:`
is true for the empty string) and reports success when that file exists,
while the claim requires failure without fallback. -/
theorem credentials_claim_counterexample :
    (check_credentials (Option.some "") (fun s => s == adc_path)).1 = true ∧
    ¬ claimed_credentials_ok (Option.some "") (fun s => s == adc_path) := by
  constructor
  · rfl
  · intro h
    have h' : (("" : String) == adc_path) = true := h
    simp [adc_path] at h'

/-- The success condition of `check_credentials` amended only where the
counterexample forces it: a variable set to the empty string behaves like
an unset variable (falling back to the application-default-credentials
check); any other set value must itself be an existing path. -/
def amended_credentials_ok (creds_path : Option String)
    (path_exists : String → Bool) : Prop :=
  match creds_path with
  | Option.none => path_exists adc_path = true
  | Option.some p =>
      if p = "" then path_exists adc_path = true else path_exists p = true

/-- C10 (amended): `check_credentials` reports success if and only if
either the variable is set to a non-empty path that exists, or it is unset
or set to the empty string and the application-default-credentials file
exists; in particular a non-empty nonexistent path fails without falling
back. -/
theorem credentials_check_amended (creds_path : Option String)
    (path_exists : String → Bool) :
    (check_credentials creds_path path_exists).1 = true ↔
      amended_credentials_ok creds_path path_exists := by
  cases creds_path with
  | none =>
    unfold check_credentials amended_credentials_ok adc_fallback
    cases hadc : path_exists adc_path <;> simp [hadc]
  | some p =>
    unfold check_credentials amended_credentials_ok adc_fallback
    by_cases hp : p = ""
    · cases hadc : path_exists adc_path <;> simp [hp, hadc]
    · cases hpe : path_exists p <;> simp [hp, hpe]

/-! ## Claim C2: annotation iff at least one successful parse -/

theorem lookup_keyed_filterMap {α : Type} (h : String → Option α)
    (l : List String) (x : String) :
    (l.filterMap (fun g => (h g).map (fun v => (g, v)))).lookup x =
      if x ∈ l then h x else Option.none := by
  induction l with
  | nil => simp
  | cons g gs ih =>
    cases hg : h g with
    | none =>
      simp only [List.filterMap_cons, hg, Option.map_none']
      rw [ih]
      by_cases hx : x = g
      · subst hx
        by_cases hxs : x ∈ gs <;> simp [hxs, hg]
      · simp [hx]
    | some v =>
      simp only [List.filterMap_cons, hg, Option.map_some']
      by_cases hx : x = g
      · subst hx
        simp [List.lookup, hg]
      · have hbeq : (x == g) = false := by simp [hx]
        simp [List.lookup, hbeq, ih, hx]

theorem mem_json_field_names {table : Table} {g : FieldInfo}
    (hg : g ∈ table.schema) (ht : g.type = "JSON") :
    g.name ∈ json_field_names table := by
  unfold json_field_names
  exact List.mem_map_of_mem _ (List.mem_filter.mpr ⟨hg, by simp [ht]⟩)

theorem not_mem_json_field_names {table : Table} {g : FieldInfo}
    (hnd : (table.schema.map FieldInfo.name).Nodup) (hg : g ∈ table.schema)
    (ht : g.type ≠ "JSON") :
    g.name ∉ json_field_names table := by
  intro hmem
  unfold json_field_names at hmem
  rcases List.mem_map.mp hmem with ⟨g', hg', hname⟩
  rcases List.mem_filter.mp hg' with ⟨hg'mem, ht'⟩
  have : g' = g := List.inj_on_of_nodup_map hnd hg'mem hg hname
  subst this
  simp at ht'
  exact ht ht'

/-- C2: for every table (with distinct column names, as BigQuery
guarantees) and every column of the assembled schema, the JsonSample
annotated data (`json_schema`/`json_samples`, set together from one entry
of the sampling result) is present if and only if the column is JSON-typed,
the table has rows, and at least one of the column's sampled raw values was
successfully parsed; a column whose raw sample was empty or consisted only
of falsy cells and parse failures is left unannotated. -/
theorem jsonSample_iff_parsed (parse : String → Option Json)
    (pick : List Row → Nat → List Row) (rows : List Row) (table : Table)
    (hnd : (table.schema.map FieldInfo.name).Nodup) :
    ∀ f ∈ (get_table_schema parse pick (Option.some rows) table).fields,
      f.jsonSample.isSome = true ↔
        (f.type = "JSON" ∧ 0 < table.num_rows ∧
          parsedValues parse f.name (selectedRows pick rows 10) ≠ []) := by
  intro f hf
  unfold get_table_schema at hf
  simp only [List.mem_map] at hf
  rcases hf with ⟨b, hb, rfl⟩
  unfold base_fields at hb
  simp only [List.mem_map] at hb
  rcases hb with ⟨g, hg, rfl⟩
  simp only []
  by_cases hcond : json_field_names table ≠ [] ∧ 0 < table.num_rows
  · rw [if_pos hcond]
    unfold sample_json_fields
    rw [if_neg (by simpa [List.isEmpty_iff] using hcond.1)]
    by_cases hrows : rows.isEmpty
    · simp only [hrows, if_pos]
      have hrows' : rows = [] := List.isEmpty_iff.mp hrows
      subst hrows'
      constructor
      · intro h; cases h
      · rintro ⟨-, -, h3⟩
        exact absurd (show parsedValues parse g.name (selectedRows pick [] 10) = [] by
          simp [selectedRows, parsedValues]) h3
    · simp only [hrows]
      rw [if_neg (by simp)]
      rw [lookup_keyed_filterMap]
      by_cases hty : g.type = "JSON"
      · rw [if_pos (mem_json_field_names hg hty)]
        rw [processField_isSome]
        constructor
        · intro h; exact ⟨hty, hcond.2, h⟩
        · rintro ⟨-, -, h3⟩; exact h3
      · rw [if_neg (not_mem_json_field_names hnd hg hty)]
        constructor
        · intro h; cases h
        · rintro ⟨h1, -, -⟩; exact absurd h1 hty
  · rw [if_neg hcond]
    constructor
    · intro h; cases h
    · rintro ⟨h1, h2, h3⟩
      exact absurd ⟨List.ne_nil_of_mem (mem_json_field_names hg h1), h2⟩ hcond

theorem jsonSample_iff_parsed_witness :
    (OutField.mk "payload" "JSON" "NULLABLE" ""
        (Option.some (FieldSample.mk (Schema.node [JsonType.number] .nil .none)
          [Json.num 7]))).jsonSample.isSome = true ↔
      ((OutField.mk "payload" "JSON" "NULLABLE" ""
          (Option.some (FieldSample.mk (Schema.node [JsonType.number] .nil .none)
            [Json.num 7]))).type = "JSON" ∧
        0 < (Table.mk "events" "" 5 Option.none
              [FieldInfo.mk "payload" "JSON" "NULLABLE" ""]).num_rows ∧
        parsedValues (fun _ => Option.none)
            (OutField.mk "payload" "JSON" "NULLABLE" ""
              (Option.some (FieldSample.mk (Schema.node [JsonType.number] .nil .none)
                [Json.num 7]))).name
            (selectedRows (fun l k => l.take k)
              ([fun _ => RawValue.json (Json.num 7)] : List Row) 10) ≠ []) :=
  jsonSample_iff_parsed (fun _ => Option.none) (fun l k => l.take k)
    ([fun _ => RawValue.json (Json.num 7)] : List Row)
    (Table.mk "events" "" 5 Option.none [FieldInfo.mk "payload" "JSON" "NULLABLE" ""])
    (by decide)
    (OutField.mk "payload" "JSON" "NULLABLE" ""
      (Option.some (FieldSample.mk (Schema.node [JsonType.number] .nil .none)
        [Json.num 7])))
    (by exact List.mem_singleton.mpr rfl)

/-! ## Claim C5: the schema builder is idempotent and deterministic

The proof device is a coverage predicate: `covers s v` says the schema `s`
already accounts for the full shape of the value `v`, so folding `v` in
again cannot change `s`. -/

mutual

/-- `s` accounts for the shape of `v`: the type tag of `v` is observed at
the root, and recursively for array elements and object key values. -/
def covers : Schema → Json → Prop
  | .node ts _ _, .null => JsonType.null ∈ ts
  | .node ts _ _, .bool _ => JsonType.boolean ∈ ts
  | .node ts _ _, .num _ => JsonType.number ∈ ts
  | .node ts _ _, .str _ => JsonType.string ∈ ts
  | .node ts _ it, .arr xs =>
      JsonType.array ∈ ts ∧ ∃ s, it = ItemsSchema.some s ∧ coversItems s xs
  | .node ts ps _, .obj kvs => JsonType.object ∈ ts ∧ coversProps ps kvs

/-- The element schema accounts for every element of the array. -/
def coversItems : Schema → JsonList → Prop
  | _, .nil => True
  | s, .cons x xs => covers s x ∧ coversItems s xs

/-- Every key of the object is present with a sub-schema accounting for its
value. -/
def coversProps : SchemaProps → JsonProps → Prop
  | _, .nil => True
  | ps, .cons k v kvs =>
      (∃ s, lookupProp ps k = Option.some s ∧ covers s v) ∧ coversProps ps kvs

end

theorem lookupProp_setProp_self : ∀ (ps : SchemaProps) (key : String) (s : Schema),
    lookupProp (setProp ps key s) key = Option.some s
  | .nil, key, s => by simp [setProp, lookupProp]
  | .cons k s' tl, key, s => by
    by_cases hk : key = k
    · simp [setProp, hk, lookupProp]
    · simp [setProp, hk, lookupProp, lookupProp_setProp_self tl key s]

theorem lookupProp_setProp_ne : ∀ (ps : SchemaProps) {key' key : String} (s : Schema),
    key' ≠ key → lookupProp (setProp ps key s) key' = lookupProp ps key'
  | .nil, key', key, s, h => by simp [setProp, lookupProp, h]
  | .cons k s' tl, key', key, s, h => by
    by_cases hk : key = k
    · subst hk
      simp [setProp, lookupProp, h]
    · by_cases hk' : key' = k
      · simp [setProp, hk, lookupProp, hk']
      · simp [setProp, hk, lookupProp, hk', lookupProp_setProp_ne tl s h]

theorem setProp_eq_of_lookup : ∀ (ps : SchemaProps) (key : String) (s : Schema),
    lookupProp ps key = Option.some s → setProp ps key s = ps
  | .nil, key, s, h => by simp [lookupProp] at h
  | .cons k s' tl, key, s, h => by
    by_cases hk : key = k
    · have : s = s' := by
        rw [lookupProp, if_pos hk] at h
        exact (Option.some.injEq _ _ ▸ h).symm ▸ rfl
      subst this
      simp [setProp, hk]
    · rw [lookupProp, if_neg hk] at h
      simp [setProp, hk, setProp_eq_of_lookup tl key s h]

theorem coversItems_mono {s s' : Schema} (h : ∀ v, covers s v → covers s' v) :
    ∀ l : JsonList, coversItems s l → coversItems s' l
  | .nil, _ => trivial
  | .cons x xs, hc => ⟨h x hc.1, coversItems_mono h xs hc.2⟩

theorem coversProps_mono_of_lookup {ps ps' : SchemaProps}
    (h : ∀ (k : String) (s₀ : Schema), lookupProp ps k = Option.some s₀ →
      ∃ s₁, lookupProp ps' k = Option.some s₁ ∧ ∀ v, covers s₀ v → covers s₁ v) :
    ∀ kvs : JsonProps, coversProps ps kvs → coversProps ps' kvs
  | .nil, _ => trivial
  | .cons k v kvs, hc =>
    match hc with
    | ⟨⟨s₀, hs₀, hcov⟩, hrest⟩ =>
      match h k s₀ hs₀ with
      | ⟨s₁, hs₁, hmono⟩ =>
        ⟨⟨s₁, hs₁, hmono v hcov⟩, coversProps_mono_of_lookup h kvs hrest⟩

theorem covers_insertType (t : JsonType) :
    ∀ (ts : List JsonType) (ps : SchemaProps) (it : ItemsSchema) (v : Json),
      covers (.node ts ps it) v → covers (.node (insertType t ts) ps it) v
  | _, _, _, .null, hc => mem_insertType_of_mem t hc
  | _, _, _, .bool _, hc => mem_insertType_of_mem t hc
  | _, _, _, .num _, hc => mem_insertType_of_mem t hc
  | _, _, _, .str _, hc => mem_insertType_of_mem t hc
  | _, _, _, .arr _, hc => ⟨mem_insertType_of_mem t hc.1, hc.2⟩
  | _, _, _, .obj _, hc => ⟨mem_insertType_of_mem t hc.1, hc.2⟩

mutual

theorem covers_addObject : ∀ (s : Schema) (w v : Json), covers s v → covers (addObject s w) v
  | .node ts ps it, .null, v, hc => covers_insertType _ _ _ _ v hc
  | .node ts ps it, .bool _, v, hc => covers_insertType _ _ _ _ v hc
  | .node ts ps it, .num _, v, hc => covers_insertType _ _ _ _ v hc
  | .node ts ps it, .str _, v, hc => covers_insertType _ _ _ _ v hc
  | .node ts ps it, .arr xs, v, hc => by
      cases v with
      | null => exact mem_insertType_of_mem _ hc
      | bool b => exact mem_insertType_of_mem _ hc
      | num n => exact mem_insertType_of_mem _ hc
      | str s' => exact mem_insertType_of_mem _ hc
      | obj kvs => exact ⟨mem_insertType_of_mem _ hc.1, hc.2⟩
      | arr ys =>
        obtain ⟨h1, s₀, hs₀, hcov⟩ := hc
        subst hs₀
        exact ⟨mem_insertType_of_mem _ h1, addItems s₀ xs, rfl,
          coversItems_mono (fun u hu => covers_addItems s₀ xs u hu) ys hcov⟩
  | .node ts ps it, .obj kvs, v, hc => by
      cases v with
      | null => exact mem_insertType_of_mem _ hc
      | bool b => exact mem_insertType_of_mem _ hc
      | num n => exact mem_insertType_of_mem _ hc
      | str s' => exact mem_insertType_of_mem _ hc
      | arr ys => exact ⟨mem_insertType_of_mem _ hc.1, hc.2⟩
      | obj kvs₀ =>
        obtain ⟨h1, h2⟩ := hc
        exact ⟨mem_insertType_of_mem _ h1,
          coversProps_mono_of_lookup
            (fun k s₀ hl => covers_addProps ps kvs k s₀ hl) kvs₀ h2⟩

theorem covers_addItems : ∀ (s : Schema) (l : JsonList) (v : Json),
    covers s v → covers (addItems s l) v
  | _, .nil, _, hc => hc
  | s, .cons x xs, v, hc => covers_addItems (addObject s x) xs v (covers_addObject s x v hc)

theorem covers_addProps : ∀ (ps : SchemaProps) (kvs : JsonProps) (k : String) (s₀ : Schema),
    lookupProp ps k = Option.some s₀ →
    ∃ s₁, lookupProp (addProps ps kvs) k = Option.some s₁ ∧
      ∀ v, covers s₀ v → covers s₁ v
  | _, .nil, _, s₀, hl => ⟨s₀, hl, fun _ h => h⟩
  | ps, .cons k₀ w₀ kvs, k, s₀, hl => by
      by_cases hk : k = k₀
      · subst hk
        have hpe : propOrEmpty ps k = s₀ := by simp [propOrEmpty, hl]
        have hset : lookupProp (setProp ps k (addObject (propOrEmpty ps k) w₀)) k =
            Option.some (addObject s₀ w₀) := by
          rw [hpe, lookupProp_setProp_self]
        obtain ⟨s₁, hs₁, hmono⟩ :=
          covers_addProps (setProp ps k (addObject (propOrEmpty ps k) w₀)) kvs k
            (addObject s₀ w₀) hset
        exact ⟨s₁, hs₁, fun v hv => hmono v (covers_addObject s₀ w₀ v hv)⟩
      · have hset : lookupProp (setProp ps k₀ (addObject (propOrEmpty ps k₀) w₀)) k =
            Option.some s₀ := by
          rw [lookupProp_setProp_ne _ _ hk]
          exact hl
        exact covers_addProps _ kvs k s₀ hset

end

mutual

theorem covers_addObject_self : ∀ (s : Schema) (w : Json), covers (addObject s w) w
  | .node _ _ _, .null => mem_insertType_self _ _
  | .node _ _ _, .bool _ => mem_insertType_self _ _
  | .node _ _ _, .num _ => mem_insertType_self _ _
  | .node _ _ _, .str _ => mem_insertType_self _ _
  | .node _ _ it, .arr xs =>
      ⟨mem_insertType_self _ _, addItems (itemsOrEmpty it) xs, rfl,
        coversItems_addItems_self (itemsOrEmpty it) xs⟩
  | .node _ ps _, .obj kvs =>
      ⟨mem_insertType_self _ _, coversProps_addProps_self ps kvs⟩

theorem coversItems_addItems_self : ∀ (s : Schema) (l : JsonList),
    coversItems (addItems s l) l
  | _, .nil => trivial
  | s, .cons x xs =>
      ⟨covers_addItems (addObject s x) xs x (covers_addObject_self s x),
        coversItems_addItems_self (addObject s x) xs⟩

theorem coversProps_addProps_self : ∀ (ps : SchemaProps) (kvs : JsonProps),
    coversProps (addProps ps kvs) kvs
  | _, .nil => trivial
  | ps, .cons k v kvs => by
      have hlook : lookupProp (setProp ps k (addObject (propOrEmpty ps k) v)) k =
          Option.some (addObject (propOrEmpty ps k) v) := lookupProp_setProp_self ps k _
      have hcov : covers (addObject (propOrEmpty ps k) v) v :=
        covers_addObject_self (propOrEmpty ps k) v
      obtain ⟨s₁, hs₁, hmono⟩ :=
        covers_addProps (setProp ps k (addObject (propOrEmpty ps k) v)) kvs k
          (addObject (propOrEmpty ps k) v) hlook
      exact ⟨⟨s₁, hs₁, hmono v hcov⟩,
        coversProps_addProps_self (setProp ps k (addObject (propOrEmpty ps k) v)) kvs⟩

end

mutual

theorem addObject_eq_of_covers : ∀ (s : Schema) (w : Json), covers s w → addObject s w = s
  | .node ts ps it, .null, hc => by
      simp [addObject, insertType_eq_of_mem hc]
  | .node ts ps it, .bool _, hc => by
      simp [addObject, insertType_eq_of_mem hc]
  | .node ts ps it, .num _, hc => by
      simp [addObject, insertType_eq_of_mem hc]
  | .node ts ps it, .str _, hc => by
      simp [addObject, insertType_eq_of_mem hc]
  | .node ts ps it, .arr xs, hc => by
      obtain ⟨h1, s₀, hs₀, hcov⟩ := hc
      subst hs₀
      simp [addObject, insertType_eq_of_mem h1, itemsOrEmpty,
        addItems_eq_of_coversItems s₀ xs hcov]
  | .node ts ps it, .obj kvs, hc => by
      obtain ⟨h1, h2⟩ := hc
      simp [addObject, insertType_eq_of_mem h1, addProps_eq_of_coversProps ps kvs h2]

theorem addItems_eq_of_coversItems : ∀ (s : Schema) (l : JsonList),
    coversItems s l → addItems s l = s
  | _, .nil, _ => rfl
  | s, .cons x xs, hc => by
      have hx : addObject s x = s := addObject_eq_of_covers s x hc.1
      show addItems (addObject s x) xs = s
      rw [hx]
      exact addItems_eq_of_coversItems s xs hc.2

theorem addProps_eq_of_coversProps : ∀ (ps : SchemaProps) (kvs : JsonProps),
    coversProps ps kvs → addProps ps kvs = ps
  | _, .nil, _ => rfl
  | ps, .cons k v kvs, hc => by
      obtain ⟨⟨s₀, hs₀, hcov⟩, hrest⟩ := hc
      have hpe : propOrEmpty ps k = s₀ := by simp [propOrEmpty, hs₀]
      have habs : addObject (propOrEmpty ps k) v = s₀ := by
        rw [hpe]
        exact addObject_eq_of_covers s₀ v hcov
      have hset : setProp ps k (addObject (propOrEmpty ps k) v) = ps := by
        rw [habs]
        exact setProp_eq_of_lookup ps k s₀ hs₀
      show addProps (setProp ps k (addObject (propOrEmpty ps k) v)) kvs = ps
      rw [hset]
      exact addProps_eq_of_coversProps ps kvs hrest

end

theorem covers_foldl (l : List Json) :
    ∀ (s : Schema) (v : Json), covers s v → covers (l.foldl addObject s) v := by
  induction l with
  | nil => intro s v h; simpa using h
  | cons x xs ih =>
    intro s v h
    simpa using ih (addObject s x) v (covers_addObject s x v h)

theorem covers_foldl_self (l : List Json) :
    ∀ (s : Schema) (v : Json), v ∈ l → covers (l.foldl addObject s) v := by
  induction l with
  | nil => intro s v h; cases h
  | cons x xs ih =>
    intro s v h
    rcases List.mem_cons.mp h with rfl | h'
    · simpa using covers_foldl xs (addObject s v) v (covers_addObject_self s v)
    · simpa using ih (addObject s x) v h'

theorem foldl_eq_of_covers (l : List Json) :
    ∀ s : Schema, (∀ v ∈ l, covers s v) → l.foldl addObject s = s := by
  induction l with
  | nil => intro s _; rfl
  | cons x xs ih =>
    intro s h
    have hx : addObject s x = s := addObject_eq_of_covers s x (h x (List.mem_cons_self x xs))
    simp only [List.foldl_cons, hx]
    exact ih s (fun v hv => h v (List.mem_cons_of_mem x hv))

/-- C5: the Inferencer is idempotent and deterministic.  Idempotence:
running the fold a second time over the same fixed sequence of parsed
values — whether by feeding the builder the sequence twice
(`inferSchema (vs ++ vs)`) or by re-folding the sequence on top of the
first run's result — yields the identical structural schema.  Determinism:
the inferred schema is a function of the parsed-value sequence alone (the
embedding of the inference loop is pure; the only nondeterministic input of
the pipeline, `random.sample`, lives in the Sampler's `pick`). -/
theorem inferencer_idempotent_deterministic (vs : List Json) :
    inferSchema (vs ++ vs) = inferSchema vs ∧
    vs.foldl addObject (inferSchema vs) = inferSchema vs ∧
    ∀ vs' : List Json, vs = vs' → inferSchema vs = inferSchema vs' := by
  have habs : vs.foldl addObject (inferSchema vs) = inferSchema vs :=
    foldl_eq_of_covers vs (inferSchema vs)
      (fun v hv => covers_foldl_self vs Schema.empty v hv)
  refine ⟨?_, habs, fun vs' h => h ▸ rfl⟩
  show (vs ++ vs).foldl addObject Schema.empty = inferSchema vs
  rw [List.foldl_append]
  exact habs

theorem inferencer_idempotent_deterministic_witness :
    inferSchema ([Json.num 1, Json.str "a"] ++ [Json.num 1, Json.str "a"]) =
      inferSchema [Json.num 1, Json.str "a"] ∧
    inferSchema [Json.num 1, Json.str "a"] = inferSchema [Json.num 1, Json.str "a"] :=
  ⟨(inferencer_idempotent_deterministic [Json.num 1, Json.str "a"]).1,
    (inferencer_idempotent_deterministic [Json.num 1, Json.str "a"]).2.2
      [Json.num 1, Json.str "a"] rfl⟩
